import Mathlib

/-!
Verification development for the request-inspection layer in `Wall.py`.

The program installs a `before_request` hook (`SecurityMiddleware.validate_request`)
on a Flask app.  The hook decodes the raw request body and
  1. searches it with the regex `(SELECT|INSERT|UPDATE|DELETE|DROP|;|--|#)`
     compiled with `re.IGNORECASE`; on a match it raises
     `ValueError("Potential SQL injection detected.")`;
  2. otherwise searches it with the case-sensitive regex `<[^>]+>`; on a match
     it raises `ValueError("Potential XSS attack detected.")`;
  3. otherwise returns, letting the request through.
The only route, `POST /submit` (`submit_data`), returns status 200 with the fixed
JSON payload; an exception from the hook makes Flask answer with a generic 500.

We embed request bodies as `List Char`.  The regex searches are embedded as
executable scanning functions (`searchSub` for the literal alternation,
`xssSearch` for `<[^>]+>`), and we prove that each search succeeds exactly when
the corresponding substring decomposition of the body exists.  Case-insensitive
matching of the ASCII keyword alternatives is embedded by comparing
`Char.toLower` images, which agrees with `re.IGNORECASE` on ASCII text.
-/

/-- Result tag identifying why the hook rejected a request; `sql_injection_suspected`
corresponds to `ValueError("Potential SQL injection detected.")` and
`xss_suspected` to `ValueError("Potential XSS attack detected.")`. -/
inductive RejectKind where
  | sql_injection_suspected
  | xss_suspected
deriving DecidableEq

/-- Outcome of the validation hook: fall through (accept) or raise (reject). -/
inductive Decision where
  | accept
  | reject (kind : RejectKind)
deriving DecidableEq

/-- The per-request data visible to the hook through the `request` proxy.
`validate_request` in the source reads only `request.data`. -/
structure RequestCtx where
  data : List Char
  path : List Char
  method : List Char

/-- Tests whether `p` matches at the very start of `s`
(the anchored step of a literal-alternative regex search). -/
def matchHere : List Char → List Char → Bool
  | [], _ => true
  | _ :: _, [] => false
  | p :: ps, c :: cs => p == c && matchHere ps cs

/-- Tests whether the literal `p` occurs anywhere in `s`, as `re.search` does for
a literal alternative: try every start position. -/
def searchSub (p : List Char) : List Char → Bool
  | [] => matchHere p []
  | c :: cs => matchHere p (c :: cs) || searchSub p cs

/-- The alternatives of the SQL-injection regex
`(SELECT|INSERT|UPDATE|DELETE|DROP|;|--|#)`, lowered; with `re.IGNORECASE`
the search is equivalent (on ASCII) to searching the lowered text for these. -/
def sqlTokens : List (List Char) :=
  ["select".data, "insert".data, "update".data, "delete".data, "drop".data,
   ";".data, "--".data, "#".data]

/-- Embeds `sql_injection_patterns.search(request.data.decode('utf-8'))`:
some alternative of the IGNORECASE alternation occurs in the body. -/
def sql_injection_search (s : List Char) : Bool :=
  sqlTokens.any (fun t => searchSub t (s.map Char.toLower))

/-- Scans for a `>` character, skipping (necessarily non-`>`) characters before
it: the `[^>]*>` tail of the tag regex once one interior character is consumed. -/
def findGt : List Char → Bool
  | [] => false
  | c :: rest => c == '>' || findGt rest

/-- Given the characters following a `<`, tests whether `[^>]+>` matches here:
the next character must not be `>`, and a `>` must occur later. -/
def tagAfterLt : List Char → Bool
  | [] => false
  | c :: rest => !(c == '>') && findGt rest

/-- Embeds `xss_patterns.search(request.data.decode('utf-8'))` for the regex
`<[^>]+>`: at some position a `<` is followed by one or more non-`>`
characters and then a `>`. -/
def xssSearch : List Char → Bool
  | [] => false
  | c :: rest => (c == '<' && tagAfterLt rest) || xssSearch rest

/-- Embeds `SecurityMiddleware.validate_request`: run the SQL-pattern search
first, then the XSS-pattern search, on the decoded body `ctx.data`; a match
raises (reject), otherwise the hook falls through (accept). -/
def validate_request (ctx : RequestCtx) : Decision :=
  if sql_injection_search ctx.data then Decision.reject RejectKind.sql_injection_suspected
  else if xssSearch ctx.data then Decision.reject RejectKind.xss_suspected
  else Decision.accept

/-- An HTTP response: status code and body text. -/
structure Response where
  status : Nat
  body : List Char
deriving DecidableEq

/-- The JSON text produced by `jsonify({"message": "Data submitted successfully!"})`. -/
def successBody : List Char :=
  "\x7b\"message\": \"Data submitted successfully!\"\x7d".data

/-- Embeds the route handler `submit_data`: unconditionally the fixed 200 payload. -/
def submit_data : Response := Response.mk 200 successBody

/-- The opaque generic body of Flask's fallback 500 page (its content is not
specified; only the status matters to the spec). -/
def internalErrorBody : List Char := "Internal Server Error".data

/-- Embeds one `POST /submit` request through the app: Flask runs the
`before_request` hook first; if it raises, the handler is skipped and the
error fallback answers 500; otherwise `submit_data` runs.  The `Bool`
records whether the handler executed. -/
def postSubmit (ctx : RequestCtx) : Response × Bool :=
  match validate_request ctx with
  | Decision.accept => (submit_data, true)
  | Decision.reject _ => (Response.mk 500 internalErrorBody, false)

/-- Builds the request context of a `POST /submit` with the given body. -/
def mkReq (body : List Char) : RequestCtx :=
  RequestCtx.mk body "/submit".data "POST".data

/-! ### Specification-side predicates (from the claims' wording) -/

/-- The body `s` contains, case-insensitively, the token `tok` as a substring:
some stretch of `s` agrees with `tok` up to letter case. -/
def ContainsTokCI (s tok : List Char) : Prop :=
  ∃ pre t post, s = pre ++ t ++ post ∧ t.map Char.toLower = tok.map Char.toLower

/-- The body `s` contains some SQL token of the pattern set, case-insensitively. -/
def ContainsSqlToken (s : List Char) : Prop :=
  ∃ tok ∈ sqlTokens, ContainsTokCI s tok

/-- The body `s` contains an HTML-tag-shaped substring: a `<`, then one or more
characters none of which is `>`, then a `>`. -/
def HasTag (s : List Char) : Prop :=
  ∃ pre mid post, s = pre ++ '<' :: (mid ++ '>' :: post) ∧ mid ≠ [] ∧ '>' ∉ mid

/-! ### Characterisation of the searches -/

theorem matchHere_iff (p s : List Char) :
    matchHere p s = true ↔ ∃ t, s = p ++ t := by
  induction p generalizing s with
  | nil => simp [matchHere]
  | cons a ps ih =>
    cases s with
    | nil => simp [matchHere]
    | cons b cs =>
      simp only [matchHere, Bool.and_eq_true, beq_iff_eq, ih, List.cons_append,
        List.cons.injEq]
      constructor
      · rintro ⟨rfl, t, rfl⟩
        exact ⟨t, rfl, rfl⟩
      · rintro ⟨t, rfl, rfl⟩
        exact ⟨rfl, t, rfl⟩

theorem searchSub_iff (p s : List Char) :
    searchSub p s = true ↔ ∃ pre post, s = pre ++ p ++ post := by
  induction s with
  | nil =>
    simp only [searchSub, matchHere_iff]
    constructor
    · rintro ⟨t, ht⟩
      exact ⟨[], t, ht⟩
    · rintro ⟨pre, post, h⟩
      rw [List.append_assoc] at h
      have hpre : pre = [] := by
        cases pre with
        | nil => rfl
        | cons a l => simp at h
      subst hpre
      exact ⟨post, h⟩
  | cons c cs ih =>
    simp only [searchSub, Bool.or_eq_true, matchHere_iff, ih]
    constructor
    · rintro (⟨t, ht⟩ | ⟨pre, post, rfl⟩)
      · exact ⟨[], t, by simpa using ht⟩
      · exact ⟨c :: pre, post, rfl⟩
    · rintro ⟨pre, post, h⟩
      cases pre with
      | nil =>
        exact Or.inl ⟨post, by simpa using h⟩
      | cons a l =>
        rw [List.cons_append, List.cons_append, List.cons.injEq] at h
        exact Or.inr ⟨l, post, h.2⟩

theorem map_eq_append_exists {f : Char → Char} {l a b : List Char}
    (h : l.map f = a ++ b) :
    ∃ a' b', l = a' ++ b' ∧ a'.map f = a ∧ b'.map f = b := by
  induction a generalizing l with
  | nil => exact ⟨[], l, rfl, rfl, h⟩
  | cons x xs ih =>
    cases l with
    | nil => simp at h
    | cons y ys =>
      rw [List.map_cons, List.cons_append, List.cons.injEq] at h
      obtain ⟨a', b', rfl, h1, h2⟩ := ih h.2
      exact ⟨y :: a', b', rfl, by simp [h.1, h1], h2⟩

theorem searchSub_map_iff (p s : List Char) :
    searchSub p (s.map Char.toLower) = true ↔
      ∃ pre t post, s = pre ++ t ++ post ∧ t.map Char.toLower = p := by
  rw [searchSub_iff]
  constructor
  · rintro ⟨pre, post, h⟩
    rw [List.append_assoc] at h
    obtain ⟨pre', rest, rfl, hpre, hrest⟩ := map_eq_append_exists h
    obtain ⟨t, post', rfl, ht, hpost⟩ := map_eq_append_exists hrest
    exact ⟨pre', t, post', by rw [List.append_assoc], ht⟩
  · rintro ⟨pre, t, post, rfl, ht⟩
    exact ⟨pre.map Char.toLower, post.map Char.toLower, by
      simp [ht, List.append_assoc]⟩

theorem sqlTokens_lower : ∀ t ∈ sqlTokens, t.map Char.toLower = t := by decide

theorem sql_search_iff (s : List Char) :
    sql_injection_search s = true ↔ ContainsSqlToken s := by
  unfold sql_injection_search ContainsSqlToken
  rw [List.any_eq_true]
  constructor
  · rintro ⟨t, ht, hs⟩
    obtain ⟨pre, t', post, rfl, h⟩ := (searchSub_map_iff t _).mp hs
    exact ⟨t, ht, pre, t', post, rfl, by rw [h, sqlTokens_lower t ht]⟩
  · rintro ⟨t, ht, pre, t', post, rfl, h⟩
    refine ⟨t, ht, (searchSub_map_iff t _).mpr ⟨pre, t', post, rfl, ?_⟩⟩
    rw [h, sqlTokens_lower t ht]

theorem findGt_iff (l : List Char) : findGt l = true ↔ '>' ∈ l := by
  induction l with
  | nil => simp [findGt]
  | cons c rest ih =>
    simp only [findGt, Bool.or_eq_true, beq_iff_eq, ih, List.mem_cons]
    constructor
    · rintro (rfl | h)
      · exact Or.inl rfl
      · exact Or.inr h
    · rintro (rfl | h)
      · exact Or.inl rfl
      · exact Or.inr h

theorem mem_split_first {l : List Char} (h : '>' ∈ l) :
    ∃ m p, l = m ++ '>' :: p ∧ '>' ∉ m := by
  induction l with
  | nil => simp at h
  | cons c cs ih =>
    by_cases hc : c = '>'
    · exact ⟨[], cs, by simp [hc], by simp⟩
    · have hcs : '>' ∈ cs := by
        rcases List.mem_cons.mp h with h1 | h1
        · exact absurd h1.symm hc
        · exact h1
      obtain ⟨m, p, rfl, hm⟩ := ih hcs
      exact ⟨c :: m, p, rfl, by
        simp only [List.mem_cons, not_or]
        exact ⟨fun hh => hc hh.symm, hm⟩⟩

theorem xss_search_iff (s : List Char) : xssSearch s = true ↔ HasTag s := by
  induction s with
  | nil =>
    simp only [xssSearch, HasTag]
    constructor
    · intro h
      exact absurd h (by simp)
    · rintro ⟨pre, mid, post, h, _, _⟩
      simp at h
  | cons c cs ih =>
    simp only [xssSearch, Bool.or_eq_true, Bool.and_eq_true, beq_iff_eq, ih]
    constructor
    · rintro (⟨rfl, htag⟩ | ⟨pre, mid, post, rfl, hmid, hgt⟩)
      · cases cs with
        | nil => simp [tagAfterLt] at htag
        | cons d rest =>
          simp only [tagAfterLt, Bool.and_eq_true, Bool.not_eq_true',
            beq_eq_false_iff_ne, ne_eq] at htag
          obtain ⟨hd, hfind⟩ := htag
          obtain ⟨m, p, rfl, hm⟩ := mem_split_first ((findGt_iff rest).mp hfind)
          refine ⟨[], d :: m, p, by simp, by simp, ?_⟩
          simp only [List.mem_cons, not_or]
          exact ⟨fun hh => hd hh.symm, hm⟩
      · exact ⟨c :: pre, mid, post, rfl, hmid, hgt⟩
    · rintro ⟨pre, mid, post, h, hmid, hgt⟩
      cases pre with
      | nil =>
        rw [List.nil_append, List.cons.injEq] at h
        obtain ⟨rfl, rfl⟩ := h
        left
        refine ⟨rfl, ?_⟩
        cases mid with
        | nil => exact absurd rfl hmid
        | cons d m =>
          simp only [List.mem_cons, not_or] at hgt
          rw [List.cons_append]
          have hd : (d == '>') = false :=
            beq_eq_false_iff_ne.mpr (fun hh => hgt.1 hh.symm)
          simp [tagAfterLt, hd, findGt_iff]
      | cons a l =>
        rw [List.cons_append, List.cons.injEq] at h
        exact Or.inr ⟨l, mid, post, h.2, hmid, hgt⟩

/-! ### Helper facts used to discharge hypotheses at concrete inputs -/

theorem not_containsSql_of_search_false {s : List Char}
    (h : sql_injection_search s = false) : ¬ ContainsSqlToken s := by
  intro hc
  rw [(sql_search_iff s).mpr hc] at h
  exact Bool.noConfusion h

theorem not_hasTag_of_search_false {s : List Char}
    (h : xssSearch s = false) : ¬ HasTag s := by
  intro hc
  rw [(xss_search_iff s).mpr hc] at h
  exact Bool.noConfusion h

theorem sql_search_eq_false {s : List Char}
    (h : ¬ ContainsSqlToken s) : sql_injection_search s = false := by
  cases hb : sql_injection_search s with
  | false => rfl
  | true => exact absurd ((sql_search_iff s).mp hb) h

theorem xss_search_eq_false {s : List Char}
    (h : ¬ HasTag s) : xssSearch s = false := by
  cases hb : xssSearch s with
  | false => rfl
  | true => exact absurd ((xss_search_iff s).mp hb) h

theorem hasTag_mem_gt {s : List Char} (h : HasTag s) : '>' ∈ s := by
  obtain ⟨pre, mid, post, rfl, _, _⟩ := h
  simp

theorem xssSearch_append_of_not_lt {pre l : List Char} (h : '<' ∉ pre) :
    xssSearch (pre ++ l) = xssSearch l := by
  induction pre with
  | nil => rfl
  | cons c cs ih =>
    simp only [List.mem_cons, not_or] at h
    rw [List.cons_append]
    show ((c == '<' && tagAfterLt (cs ++ l)) || xssSearch (cs ++ l)) = xssSearch l
    have hc : (c == '<') = false := beq_eq_false_iff_ne.mpr (fun hh => h.1 hh.symm)
    rw [hc, Bool.false_and, Bool.false_or, ih h.2]

theorem xssSearch_eq_false_of_not_lt {s : List Char} (h : '<' ∉ s) :
    xssSearch s = false := by
  have h2 := @xssSearch_append_of_not_lt s [] h
  rw [List.append_nil] at h2
  rw [h2]
  rfl

theorem xssSearch_eq_false_of_not_gt {s : List Char} (h : '>' ∉ s) :
    xssSearch s = false := by
  cases hb : xssSearch s with
  | false => rfl
  | true => exact absurd (hasTag_mem_gt ((xss_search_iff s).mp hb)) h

/-! ### The claims -/

/-- C1: every body containing none of the SQL tokens (case-insensitively) and no
HTML-tag-shaped substring is accepted by the validation hook, and a
`POST /submit` with that body returns status 200 with the fixed success payload. -/
theorem c1_clean_body_accepted (body : List Char)
    (hsql : ¬ ContainsSqlToken body) (hxss : ¬ HasTag body) :
    validate_request (mkReq body) = Decision.accept ∧
    postSubmit (mkReq body) = (Response.mk 200 successBody, true) := by
  have h1 : sql_injection_search body = false := sql_search_eq_false hsql
  have h2 : xssSearch body = false := xss_search_eq_false hxss
  have hv : validate_request (mkReq body) = Decision.accept := by
    simp [validate_request, mkReq, h1, h2]
  exact ⟨hv, by simp [postSubmit, hv, submit_data]⟩

theorem c1_witness :
    validate_request (mkReq "\x7b\"name\": \"John Doe\"\x7d".data) = Decision.accept ∧
    postSubmit (mkReq "\x7b\"name\": \"John Doe\"\x7d".data) =
      (Response.mk 200 successBody, true) :=
  c1_clean_body_accepted _ (not_containsSql_of_search_false (by decide))
    (not_hasTag_of_search_false (by decide))

/-- C2: every body containing, case-insensitively, some SQL token as a substring
is rejected with kind `sql_injection_suspected`, and a `POST /submit` with that
body yields a status-500 response. -/
theorem c2_sql_token_rejected (body : List Char) (h : ContainsSqlToken body) :
    validate_request (mkReq body) = Decision.reject RejectKind.sql_injection_suspected ∧
    (postSubmit (mkReq body)).1.status = 500 := by
  have h1 : sql_injection_search body = true := (sql_search_iff body).mpr h
  have hv : validate_request (mkReq body) =
      Decision.reject RejectKind.sql_injection_suspected := by
    simp [validate_request, mkReq, h1]
  exact ⟨hv, by simp [postSubmit, hv]⟩

theorem c2_witness :
    validate_request (mkReq "\x7b\"name\": \"John Doe; DROP TABLE users;\"\x7d".data) =
      Decision.reject RejectKind.sql_injection_suspected ∧
    (postSubmit (mkReq "\x7b\"name\": \"John Doe; DROP TABLE users;\"\x7d".data)).1.status = 500 :=
  c2_sql_token_rejected _ ((sql_search_iff _).mp (by decide))

/-- C3: every body containing an HTML-tag-shaped substring but no SQL token is
rejected with kind `xss_suspected`, and a `POST /submit` with that body yields
status 500. -/
theorem c3_tag_only_rejected_xss (body : List Char)
    (htag : HasTag body) (hsql : ¬ ContainsSqlToken body) :
    validate_request (mkReq body) = Decision.reject RejectKind.xss_suspected ∧
    (postSubmit (mkReq body)).1.status = 500 := by
  have h1 : sql_injection_search body = false := sql_search_eq_false hsql
  have h2 : xssSearch body = true := (xss_search_iff body).mpr htag
  have hv : validate_request (mkReq body) = Decision.reject RejectKind.xss_suspected := by
    simp [validate_request, mkReq, h1, h2]
  exact ⟨hv, by simp [postSubmit, hv]⟩

theorem c3_witness :
    validate_request (mkReq "<script>alert(1)</script>".data) =
      Decision.reject RejectKind.xss_suspected ∧
    (postSubmit (mkReq "<script>alert(1)</script>".data)).1.status = 500 :=
  c3_tag_only_rejected_xss _ ((xss_search_iff _).mp (by decide))
    (not_containsSql_of_search_false (by decide))

/-- C4: a body matching both the SQL pattern and the XSS pattern is rejected with
kind `sql_injection_suspected`: the SQL check runs first, so the XSS check is
never the reported reason for such a body. -/
theorem c4_sql_checked_first (body : List Char)
    (hsql : ContainsSqlToken body) (_htag : HasTag body) :
    validate_request (mkReq body) = Decision.reject RejectKind.sql_injection_suspected := by
  have h1 : sql_injection_search body = true := (sql_search_iff body).mpr hsql
  simp [validate_request, mkReq, h1]

theorem c4_witness :
    validate_request (mkReq "<b>DROP TABLE users</b>".data) =
      Decision.reject RejectKind.sql_injection_suspected :=
  c4_sql_checked_first _ ((sql_search_iff _).mp (by decide))
    ((xss_search_iff _).mp (by decide))

/-- C5: the XSS check fires exactly when the body contains a substring made of a
`<`, then one or more characters none of which is `>`, then a `>`; the match is
on the exact characters of the body (case plays no role in this pattern). -/
theorem c5_xss_check_exact (s : List Char) : xssSearch s = true ↔ HasTag s :=
  xss_search_iff s

/-- C6: a request whose decoded body is the empty string is always accepted by
the validation hook, and the `POST /submit` returns status 200. -/
theorem c6_empty_body_accepted (ctx : RequestCtx) (h : ctx.data = []) :
    validate_request ctx = Decision.accept ∧ (postSubmit ctx).1.status = 200 := by
  have h1 : sql_injection_search [] = false := by decide
  have h2 : xssSearch [] = false := by decide
  have hv : validate_request ctx = Decision.accept := by
    simp [validate_request, h, h1, h2]
  exact ⟨hv, by simp [postSubmit, hv, submit_data]⟩

theorem c6_witness :
    validate_request (mkReq "".data) = Decision.accept ∧
    (postSubmit (mkReq "".data)).1.status = 200 :=
  c6_empty_body_accepted (mkReq "".data) rfl

/-- C7: every body containing the word "deleted" in any letter case is rejected
with kind `sql_injection_suspected`, because "deleted" contains "DELETE" as a
case-insensitive substring (the false-positive behavior of substring matching). -/
theorem c7_deleted_false_positive (body : List Char)
    (h : ContainsTokCI body "deleted".data) :
    validate_request (mkReq body) = Decision.reject RejectKind.sql_injection_suspected := by
  obtain ⟨pre, t, post, rfl, ht⟩ := h
  have hlow : ("deleted".data).map Char.toLower = "delete".data ++ "d".data := by decide
  rw [hlow] at ht
  obtain ⟨t1, t2, rfl, ht1, ht2⟩ := map_eq_append_exists ht
  have hsql : ContainsSqlToken (pre ++ (t1 ++ t2) ++ post) := by
    refine ⟨"delete".data, by decide, pre, t1, t2 ++ post, ?_, ?_⟩
    · simp [List.append_assoc]
    · rw [ht1]
      decide
  have h1 : sql_injection_search (pre ++ (t1 ++ (t2 ++ post))) = true := by
    have h0 := (sql_search_iff _).mpr hsql
    simpa [List.append_assoc] using h0
  simp [validate_request, mkReq, h1]

theorem c7_witness :
    validate_request (mkReq "user was DeLeTeD today".data) =
      Decision.reject RejectKind.sql_injection_suspected :=
  c7_deleted_false_positive _
    ⟨"user was ".data, "DeLeTeD".data, " today".data, by decide, by decide⟩

/-- C8: the handler runs only when the hook accepts: whenever the hook rejects a
request, `submit_data` never executes and the server answers 500 with a body
that is not the success payload. -/
theorem c8_handler_reached_only_on_accept (ctx : RequestCtx) (k : RejectKind)
    (h : validate_request ctx = Decision.reject k) :
    (postSubmit ctx).2 = false ∧ (postSubmit ctx).1.status = 500 ∧
    (postSubmit ctx).1 ≠ submit_data := by
  have hp : postSubmit ctx = (Response.mk 500 internalErrorBody, false) := by
    simp [postSubmit, h]
  refine ⟨by rw [hp], by rw [hp], by rw [hp]; decide⟩

theorem c8_witness :
    (postSubmit (mkReq "DROP".data)).2 = false ∧
    (postSubmit (mkReq "DROP".data)).1.status = 500 ∧
    (postSubmit (mkReq "DROP".data)).1 ≠ submit_data :=
  c8_handler_reached_only_on_accept (mkReq "DROP".data)
    RejectKind.sql_injection_suspected (by decide)

/-- C9: the hook's decision is a deterministic function of the decoded body text
alone: two requests with equal bodies get equal decisions, whatever the rest of
the request context holds, and the hook computes no state change (it is embedded
as a pure function of the context). -/
theorem c9_validator_deterministic (a b : RequestCtx) (h : a.data = b.data) :
    validate_request a = validate_request b := by
  simp [validate_request, h]

theorem c9_witness :
    validate_request (RequestCtx.mk "hello".data "/submit".data "POST".data) =
    validate_request (RequestCtx.mk "hello".data "/other".data "GET".data) :=
  c9_validator_deterministic _ _ rfl

/-- C10: a body whose only angle brackets form the empty pair `<>` (with no
bracket elsewhere), or whose brackets are all unclosed `<` (no `>` at all), or
all unopened `>` (no `<` at all), and which contains no SQL token, is accepted:
the XSS pattern needs at least one non-`>` character between the brackets. -/
theorem c10_empty_pair_or_lone_brackets_accepted :
    (∀ pre post : List Char, '<' ∉ pre → '>' ∉ pre → '<' ∉ post → '>' ∉ post →
      ¬ ContainsSqlToken (pre ++ '<' :: '>' :: post) →
      validate_request (mkReq (pre ++ '<' :: '>' :: post)) = Decision.accept) ∧
    (∀ s : List Char, '>' ∉ s → ¬ ContainsSqlToken s →
      validate_request (mkReq s) = Decision.accept) ∧
    (∀ s : List Char, '<' ∉ s → ¬ ContainsSqlToken s →
      validate_request (mkReq s) = Decision.accept) := by
  refine ⟨?_, ?_, ?_⟩
  · intro pre post h1 h2 h3 h4 hsql
    have hx : xssSearch (pre ++ '<' :: '>' :: post) = false := by
      rw [@xssSearch_append_of_not_lt pre ('<' :: '>' :: post) h1]
      have hpost : xssSearch post = false := xssSearch_eq_false_of_not_lt h3
      show (('<' == '<' && tagAfterLt ('>' :: post)) || xssSearch ('>' :: post)) = false
      have h5 : tagAfterLt ('>' :: post) = false := by
        show (!('>' == '>') && findGt post) = false
        simp
      have h6 : xssSearch ('>' :: post) = false := by
        show (('>' == '<' && tagAfterLt post) || xssSearch post) = false
        have : ('>' == '<') = false := by decide
        simp [this, hpost]
      simp [h5, h6]
    simp [validate_request, mkReq, sql_search_eq_false hsql, hx]
  · intro s hgt hsql
    simp [validate_request, mkReq, sql_search_eq_false hsql,
      xssSearch_eq_false_of_not_gt hgt]
  · intro s hlt hsql
    simp [validate_request, mkReq, sql_search_eq_false hsql,
      xssSearch_eq_false_of_not_lt hlt]

theorem c10_witness :
    validate_request (mkReq ("ab".data ++ '<' :: '>' :: "cd".data)) = Decision.accept ∧
    validate_request (mkReq "a<b".data) = Decision.accept ∧
    validate_request (mkReq "a>b".data) = Decision.accept :=
  ⟨c10_empty_pair_or_lone_brackets_accepted.1 "ab".data "cd".data
      (by decide) (by decide) (by decide) (by decide)
      (not_containsSql_of_search_false (by decide)),
   c10_empty_pair_or_lone_brackets_accepted.2.1 "a<b".data (by decide)
      (not_containsSql_of_search_false (by decide)),
   c10_empty_pair_or_lone_brackets_accepted.2.2 "a>b".data (by decide)
      (not_containsSql_of_search_false (by decide))⟩
